import Mathlib

/-!
Verification of the Lira personal-finance core (src/src/lib/currency.tsx and
src/src/lib/categories.ts) against its natural-language specification.

Shallow embedding conventions:
- JS numbers are modelled as rationals (ℚ): the arithmetic of every claim is
  exact at the concrete inputs involved, and no claim hinges on binary
  floating-point rounding.
- Calendar dates are modelled at day granularity as integers (all replay math
  in the source is date-granular; `setHours(0,0,0,0)` collapses a timestamp to
  its day).
- A JS object used as a rate table is modelled as an association list in key
  insertion order (`Object.keys` order matters for base-currency detection);
  lookup returns the first binding, and assignment overwrites in place or
  appends, as JS object assignment does.
- Asynchronous I/O (HTTP fetches, `Date.now()`, JS calendar arithmetic for
  year-based period starts) is passed in as explicit oracle arguments; the
  surrounding pure computation is translated from the source.
- JS truthiness on a rate entry (`rates[k]`) is: present and nonzero.
-/

/- Batteries marks the rational-number operations irreducible, which blocks
kernel evaluation of concrete model runs; restore default reducibility for
this development so `decide` can evaluate the model on concrete inputs. -/
attribute [local semireducible] Rat.add Rat.mul Rat.sub Rat.inv

/-- Rate table: JS object `{ [asset: string]: number }` in insertion order. -/
abbrev AssetRates := List (String × ℚ)

/-- First binding of a key, as JS property lookup on an object. -/
def ratesLookup (rates : AssetRates) (k : String) : Option ℚ :=
  (rates.find? (fun p => p.1 == k)).map (fun p => p.2)

/-- JS truthiness of `rates[k]`: the key is present with a nonzero value. -/
def truthyRate (rates : AssetRates) (k : String) : Bool :=
  match ratesLookup rates k with
  | some v => v != 0
  | none => false

/-- Value of `rates[k]` where it is read (only ever under a truthiness guard,
so the default is irrelevant). -/
def rateValue (rates : AssetRates) (k : String) : ℚ :=
  (ratesLookup rates k).getD 0

/-- `Object.keys(rates).find((asset) => rates[asset] === 1) || "USD"`:
the first key bound to exactly 1, defaulting to the literal "USD". -/
def baseCurrencyOf (rates : AssetRates) : String :=
  ((rates.find? (fun p => p.2 == 1)).map (fun p => p.1)).getD "USD"

/-- `convertCurrency` from src/src/lib/currency.tsx lines 195-229.
Branches in source order: identity, base→other, other→base, cross via base,
1:1 fallback. -/
def convertCurrency (amount : ℚ) (fromAsset toAsset : String)
    (rates : AssetRates) : ℚ :=
  if fromAsset == toAsset then amount
  else
    if fromAsset == baseCurrencyOf rates && truthyRate rates toAsset then
      amount * rateValue rates toAsset
    else if toAsset == baseCurrencyOf rates && truthyRate rates fromAsset then
      amount * rateValue rates fromAsset
    else if truthyRate rates fromAsset && truthyRate rates toAsset then
      (amount * rateValue rates fromAsset) / rateValue rates toAsset
    else amount

/-- Variant of `convertCurrency` whose cross-conversion division is checked:
it returns `none` exactly when the division at line 223 of the source would
divide by zero. Used to state that the truthiness guard makes that
impossible. -/
def convertCurrencyChecked (amount : ℚ) (fromAsset toAsset : String)
    (rates : AssetRates) : Option ℚ :=
  if fromAsset == toAsset then some amount
  else
    if fromAsset == baseCurrencyOf rates && truthyRate rates toAsset then
      some (amount * rateValue rates toAsset)
    else if toAsset == baseCurrencyOf rates && truthyRate rates fromAsset then
      some (amount * rateValue rates fromAsset)
    else if truthyRate rates fromAsset && truthyRate rates toAsset then
      if rateValue rates toAsset = 0 then none
      else some ((amount * rateValue rates fromAsset) / rateValue rates toAsset)
    else some amount

/-- The rate the conversion algorithm needs is missing from the table:
converting from the detected base needs the destination rate, converting to
the detected base needs the source rate, and a cross conversion needs both. -/
def neededRateMissing (fromAsset toAsset : String) (rates : AssetRates) : Bool :=
  if fromAsset == baseCurrencyOf rates then (ratesLookup rates toAsset).isNone
  else if toAsset == baseCurrencyOf rates then (ratesLookup rates fromAsset).isNone
  else (ratesLookup rates fromAsset).isNone || (ratesLookup rates toAsset).isNone

theorem truthyRate_eq_false_of_none {rates : AssetRates} {k : String}
    (h : ratesLookup rates k = none) : truthyRate rates k = false := by
  simp [truthyRate, h]

theorem rateValue_ne_zero_of_truthy {rates : AssetRates} {k : String}
    (h : truthyRate rates k = true) : rateValue rates k ≠ 0 := by
  unfold truthyRate at h
  unfold rateValue
  cases hl : ratesLookup rates k with
  | none => rw [hl] at h; simp at h
  | some v =>
    rw [hl] at h
    simpa using h

/-- C8: conversion between identical tickers is the exact identity, no matter
what the rate table contains. -/
theorem convertCurrency_identity (x : ℚ) (T : String) (R : AssetRates) :
    convertCurrency x T T R = x := by
  simp [convertCurrency]

/-- C2 counterexample: with rates `{USD: 1, EUR: 0.9}` the code's
other→base branch multiplies by the source rate instead of dividing, so
`convertCurrency(90, "EUR", "USD", rates)` evaluates to 81, not 100. -/
theorem convertCurrency_base_anchor_counterexample :
    convertCurrency 90 "EUR" "USD" [("USD", 1), ("EUR", 9/10)] = 81 ∧
    (81 : ℚ) ≠ 100 := by
  constructor
  · decide
  · decide

/-- C2 amended: with the rate table `{USD: 1, EUR: 0.9}`,
`convertCurrency(100, "USD", "EUR", rates)` returns 90, and
`convertCurrency(90, "EUR", "USD", rates)` returns 81 (both non-identity
branches multiply by the looked-up rate, so the round trip does not
invert). -/
theorem convertCurrency_base_anchor_amended :
    convertCurrency 100 "USD" "EUR" [("USD", 1), ("EUR", 9/10)] = 90 ∧
    convertCurrency 90 "EUR" "USD" [("USD", 1), ("EUR", 9/10)] = 81 := by
  constructor
  · decide
  · decide

/-- C7: whenever the rate the conversion algorithm needs is absent from the
table and the tickers differ, `convertCurrency` returns the amount unchanged
(1:1 fallback); the function is total, so it never throws. -/
theorem convertCurrency_missing_rate_fallback (a : ℚ) (f t : String)
    (r : AssetRates) (hne : f ≠ t) (hmiss : neededRateMissing f t r = true) :
    convertCurrency a f t r = a := by
  unfold neededRateMissing at hmiss
  by_cases hf : f = baseCurrencyOf r
  · have ht : ratesLookup r t = none := by
      simp [hf] at hmiss
      exact hmiss
    have htr : truthyRate r t = false := truthyRate_eq_false_of_none ht
    have htb : t ≠ baseCurrencyOf r := fun h => hne (by rw [hf, h])
    simp [convertCurrency, hne, htr, htb]
  · by_cases ht : t = baseCurrencyOf r
    · have hfl : ratesLookup r f = none := by
        simp [hf, ht] at hmiss
        exact hmiss
      have hfr : truthyRate r f = false := truthyRate_eq_false_of_none hfl
      simp [convertCurrency, hne, hf, hfr]
    · simp [hf, ht] at hmiss
      rcases hmiss with hm | hm
      · have hfr : truthyRate r f = false :=
          truthyRate_eq_false_of_none hm
        simp [convertCurrency, hne, hf, ht, hfr]
      · have htr : truthyRate r t = false :=
          truthyRate_eq_false_of_none hm
        simp [convertCurrency, hne, hf, ht, htr]

/-- C7 witness: converting between two tickers with no entry in the table
leaves the amount unchanged. -/
theorem convertCurrency_missing_rate_fallback_witness :
    convertCurrency 42 "EUR" "GBP" [("USD", 1)] = 42 :=
  convertCurrency_missing_rate_fallback 42 "EUR" "GBP" [("USD", 1)]
    (by decide) (by decide)

theorem convertCurrencyChecked_eq (a : ℚ) (f t : String) (r : AssetRates) :
    convertCurrencyChecked a f t r = some (convertCurrency a f t r) := by
  unfold convertCurrency convertCurrencyChecked
  split_ifs with h0 h1 h2 h3 h4
  · rfl
  · rfl
  · rfl
  · exact absurd h4 (rateValue_ne_zero_of_truthy ((Bool.and_eq_true _ _).mp h3).2)
  · rfl
  · rfl

theorem find?_filter_of_imp (l : List (String × ℚ)) (p q : String × ℚ → Bool)
    (h : ∀ x, p x = true → q x = true) : (l.filter q).find? p = l.find? p := by
  induction l with
  | nil => rfl
  | cons x xs ih =>
    by_cases hq : q x = true
    · rw [List.filter_cons_of_pos hq]
      by_cases hp : p x = true
      · rw [List.find?_cons_of_pos _ hp, List.find?_cons_of_pos _ hp]
      · rw [List.find?_cons_of_neg _ (by simpa using hp),
          List.find?_cons_of_neg _ (by simpa using hp), ih]
    · rw [List.filter_cons_of_neg (by simpa using hq)]
      have hp : p x = false := by
        cases hpx : p x with
        | false => rfl
        | true => exact absurd (h x hpx) hq
      rw [List.find?_cons_of_neg _ (by simp [hp]), ih]

theorem ratesLookup_filter_of_none (r : AssetRates) (q : String × ℚ → Bool)
    (k : String) (h : ratesLookup r k = none) :
    ratesLookup (r.filter q) k = none := by
  unfold ratesLookup at h ⊢
  rw [Option.map_eq_none'] at h ⊢
  rw [List.find?_eq_none] at h ⊢
  exact fun x hx => h x (List.mem_of_mem_filter hx)

theorem ratesLookup_filter_nonzero (r : AssetRates) (k : String)
    (hnd : (r.map Prod.fst).Nodup) :
    ratesLookup (r.filter (fun p => p.2 != 0)) k =
      match ratesLookup r k with
      | some v => if v = 0 then none else some v
      | none => none := by
  induction r with
  | nil => rfl
  | cons x xs ih =>
    rw [List.map_cons, List.nodup_cons] at hnd
    obtain ⟨hx, hxs⟩ := hnd
    by_cases hv : x.2 = 0
    · rw [List.filter_cons_of_neg (by simp [hv])]
      by_cases hk : x.1 = k
      · have hlk : ratesLookup (x :: xs) k = some x.2 := by
          unfold ratesLookup
          rw [List.find?_cons_of_pos _ (by simp [hk])]
          rfl
        have hxsk : ratesLookup xs k = none := by
          unfold ratesLookup
          rw [Option.map_eq_none', List.find?_eq_none]
          intro p hp
          simp only [beq_iff_eq]
          intro hpk
          apply hx
          have hxp : x.1 = p.1 := hk.trans hpk.symm
          rw [hxp]
          exact List.mem_map_of_mem Prod.fst hp
        rw [ratesLookup_filter_of_none xs _ k hxsk, hlk]
        simp [hv]
      · have : ratesLookup (x :: xs) k = ratesLookup xs k := by
          unfold ratesLookup
          rw [List.find?_cons_of_neg _ (by simp [hk])]
        rw [this, ih hxs]
    · rw [List.filter_cons_of_pos (by simpa using hv)]
      by_cases hk : x.1 = k
      · unfold ratesLookup
        rw [List.find?_cons_of_pos _ (by simp [hk]),
          List.find?_cons_of_pos _ (by simp [hk])]
        simp [hv]
      · unfold ratesLookup
        rw [List.find?_cons_of_neg _ (by simp [hk]),
          List.find?_cons_of_neg _ (by simp [hk])]
        exact ih hxs

theorem baseCurrencyOf_filter_nonzero (r : AssetRates) :
    baseCurrencyOf (r.filter (fun p => p.2 != 0)) = baseCurrencyOf r := by
  unfold baseCurrencyOf
  rw [find?_filter_of_imp r (fun p => p.2 == 1) (fun p => p.2 != 0)
    (fun x hx => by simp at hx ⊢; rw [hx]; norm_num)]

theorem truthyRate_filter_nonzero (r : AssetRates) (k : String)
    (hnd : (r.map Prod.fst).Nodup) :
    truthyRate (r.filter (fun p => p.2 != 0)) k = truthyRate r k := by
  unfold truthyRate
  rw [ratesLookup_filter_nonzero r k hnd]
  cases h : ratesLookup r k with
  | none => rfl
  | some v =>
    by_cases hv : v = 0
    · simp [hv]
    · simp [hv]

theorem rateValue_filter_nonzero (r : AssetRates) (k : String)
    (hnd : (r.map Prod.fst).Nodup) (ht : truthyRate r k = true) :
    rateValue (r.filter (fun p => p.2 != 0)) k = rateValue r k := by
  unfold rateValue
  rw [ratesLookup_filter_nonzero r k hnd]
  unfold truthyRate at ht
  cases h : ratesLookup r k with
  | none => rw [h] at ht
  | some v =>
    rw [h] at ht
    have hv : v ≠ 0 := by simpa using ht
    simp [hv]

theorem convertCurrency_filter_zero (a : ℚ) (f t : String) (r : AssetRates)
    (hnd : (r.map Prod.fst).Nodup) :
    convertCurrency a f t r =
      convertCurrency a f t (r.filter (fun p => p.2 != 0)) := by
  unfold convertCurrency
  rw [baseCurrencyOf_filter_nonzero r, truthyRate_filter_nonzero r f hnd,
    truthyRate_filter_nonzero r t hnd]
  split_ifs with h0 h1 h2 h3
  · rfl
  · rw [rateValue_filter_nonzero r t hnd ((Bool.and_eq_true _ _).mp h1).2]
  · rw [rateValue_filter_nonzero r f hnd ((Bool.and_eq_true _ _).mp h2).2]
  · rw [rateValue_filter_nonzero r f hnd ((Bool.and_eq_true _ _).mp h3).1,
      rateValue_filter_nonzero r t hnd ((Bool.and_eq_true _ _).mp h3).2]
  · rfl

/-- C10: `convertCurrency` is total and never divides by zero — the checked
variant (which signals a zero divisor) always succeeds with the same value —
and a rate entry equal to exactly 0 behaves like an absent entry: deleting
all zero-valued entries from a well-formed table (no duplicate keys) never
changes the result. -/
theorem convertCurrency_total_and_zero_rate_safe (a : ℚ) (f t : String)
    (r : AssetRates) :
    convertCurrencyChecked a f t r = some (convertCurrency a f t r) ∧
    ((r.map Prod.fst).Nodup →
      convertCurrency a f t r =
        convertCurrency a f t (r.filter (fun p => p.2 != 0))) :=
  ⟨convertCurrencyChecked_eq a f t r, convertCurrency_filter_zero a f t r⟩

/-- C10 witness: on the table `{USD: 1, EUR: 0}` the checked conversion
succeeds and erasing the zero-valued EUR entry preserves the result. -/
theorem convertCurrency_total_and_zero_rate_safe_witness :
    convertCurrencyChecked 5 "EUR" "GBP" [("USD", 1), ("EUR", 0)] =
      some (convertCurrency 5 "EUR" "GBP" [("USD", 1), ("EUR", 0)]) ∧
    convertCurrency 5 "EUR" "GBP" [("USD", 1), ("EUR", 0)] =
      convertCurrency 5 "EUR" "GBP"
        ([("USD", 1), ("EUR", 0)].filter (fun p => p.2 != 0)) :=
  ⟨(convertCurrency_total_and_zero_rate_safe 5 "EUR" "GBP"
      [("USD", 1), ("EUR", 0)]).1,
   (convertCurrency_total_and_zero_rate_safe 5 "EUR" "GBP"
      [("USD", 1), ("EUR", 0)]).2 (by decide)⟩

/-- Row of `account_balances` (src/types/database.ts); timestamps and the
owning user are irrelevant to the valuation core and omitted. -/
structure AccountBalance where
  id : String
  account_id : String
  category : String
  currency : String
  current_balance : ℚ
  deriving DecidableEq, Repr

/-- Transaction type enum of the `transactions` table. -/
inductive TxType where
  | income
  | expense
  | transfer
  | taxation
  deriving DecidableEq, Repr

/-- Row of `transactions` (src/types/database.ts); `date` is a calendar day
number (replay math in the source is date-granular), and the columns the
valuation core never reads (user, description, category label, timestamps,
`to_account_id`) are omitted. -/
structure Transaction where
  id : String
  account_balance_id : String
  type : TxType
  amount : ℚ
  currency : String
  date : Int
  to_account_balance_id : Option String
  to_amount : Option ℚ
  to_currency : Option String
  deriving DecidableEq, Repr

/-- `calculateBalanceAtDate` from src/src/lib/currency.tsx lines 1062-1097:
filter the transactions to those dated at or before the target date, then
fold the signed deltas starting from 0. The source's if-chain is: income;
expense or taxation; transfer with its incoming/outgoing/no-op cases. -/
def calculateBalanceAtDate (currentBalance : AccountBalance)
    (assetTransactions : List Transaction) (targetDate : Int) : ℚ :=
  let relevantTransactions :=
    assetTransactions.filter (fun t => t.date ≤ targetDate)
  relevantTransactions.foldl (fun balanceAtDate transaction =>
    match transaction.type with
    | .income => balanceAtDate + transaction.amount
    | .expense => balanceAtDate - transaction.amount
    | .taxation => balanceAtDate - transaction.amount
    | .transfer =>
      if transaction.to_account_balance_id == some currentBalance.id then
        balanceAtDate + transaction.to_amount.getD 0
      else if transaction.account_balance_id == currentBalance.id then
        balanceAtDate - transaction.amount
      else balanceAtDate) 0

/-- Signed delta of one transaction for the balance with id `balId`, written
from the specification text: +amount for income; -amount for expense and for
taxation; +to_amount (0 when null) for a transfer whose destination is this
balance; -amount for a transfer whose source is this balance; 0 for a
transfer touching neither role. -/
def specSignedDelta (balId : String) (t : Transaction) : ℚ :=
  match t.type with
  | .income => t.amount
  | .expense => -t.amount
  | .taxation => -t.amount
  | .transfer =>
    if t.to_account_balance_id == some balId then t.to_amount.getD 0
    else if t.account_balance_id == balId then -t.amount
    else 0

/-- The specification's description of the replay: sum of the signed deltas
of all transactions dated at or before the target date, starting from 0. -/
def specReplaySum (balId : String) (txs : List Transaction)
    (targetDate : Int) : ℚ :=
  ((txs.filter (fun t => t.date ≤ targetDate)).map (specSignedDelta balId)).sum

theorem foldl_step_eq_sum (balId : String) (l : List Transaction) :
    ∀ acc : ℚ,
      l.foldl (fun balanceAtDate transaction =>
        match transaction.type with
        | .income => balanceAtDate + transaction.amount
        | .expense => balanceAtDate - transaction.amount
        | .taxation => balanceAtDate - transaction.amount
        | .transfer =>
          if transaction.to_account_balance_id == some balId then
            balanceAtDate + transaction.to_amount.getD 0
          else if transaction.account_balance_id == balId then
            balanceAtDate - transaction.amount
          else balanceAtDate) acc
        = acc + (l.map (specSignedDelta balId)).sum := by
  induction l with
  | nil => intro acc; simp
  | cons t ts ih =>
    intro acc
    rw [List.foldl_cons, List.map_cons, List.sum_cons, ih]
    have hstep : (match t.type with
        | .income => acc + t.amount
        | .expense => acc - t.amount
        | .taxation => acc - t.amount
        | .transfer =>
          if t.to_account_balance_id == some balId then
            acc + t.to_amount.getD 0
          else if t.account_balance_id == balId then
            acc - t.amount
          else acc) = acc + specSignedDelta balId t := by
      unfold specSignedDelta
      cases t.type with
      | income => ring
      | expense => ring
      | taxation => ring
      | transfer =>
        by_cases h1 : t.to_account_balance_id == some balId
        · simp [h1]
        · by_cases h2 : t.account_balance_id == balId
          · simp [h1, h2]; ring
          · simp [h1, h2]
    rw [hstep]
    ring

/-- The replay fold equals the sum of per-transaction signed deltas. -/
theorem calculateBalanceAtDate_eq_specReplaySum (bal : AccountBalance)
    (txs : List Transaction) (d : Int) :
    calculateBalanceAtDate bal txs d = specReplaySum bal.id txs d := by
  unfold calculateBalanceAtDate specReplaySum
  rw [foldl_step_eq_sum bal.id]
  ring

/-- Sample balance for the replay-correctness scenario of C1. -/
def c1Balance : AccountBalance :=
  { id := "b1", account_id := "a1", category := "currency",
    currency := "USD", current_balance := 70 }

/-- Income of 100 on day 1 and expense of 30 on day 5, both on `c1Balance`. -/
def c1Transactions : List Transaction :=
  [{ id := "t1", account_balance_id := "b1", type := .income, amount := 100,
     currency := "USD", date := 1, to_account_balance_id := none,
     to_amount := none, to_currency := none },
   { id := "t2", account_balance_id := "b1", type := .expense, amount := 30,
     currency := "USD", date := 5, to_account_balance_id := none,
     to_amount := none, to_currency := none }]

/-- C1: the ledger replay returns exactly the sum of the specification's
signed deltas over the transactions dated at or before the target date
(inclusive), starting from 0; and on a balance with an income of 100 on day 1
and an expense of 30 on day 5 the replayed value is 0 at day 0, 100 at day 1,
100 at day 4 and 70 at day 5. -/
theorem calculateBalanceAtDate_replay_correct :
    (∀ (bal : AccountBalance) (txs : List Transaction) (d : Int),
      calculateBalanceAtDate bal txs d = specReplaySum bal.id txs d) ∧
    calculateBalanceAtDate c1Balance c1Transactions 0 = 0 ∧
    calculateBalanceAtDate c1Balance c1Transactions 1 = 100 ∧
    calculateBalanceAtDate c1Balance c1Transactions 4 = 100 ∧
    calculateBalanceAtDate c1Balance c1Transactions 5 = 70 := by
  refine ⟨calculateBalanceAtDate_eq_specReplaySum, ?_, ?_, ?_, ?_⟩
  · decide
  · decide
  · decide
  · decide

/-- C9: the replayed value never depends on the stored `current_balance`
column — two balance rows identical except in that field replay to the same
value on every transaction list and every target date. -/
theorem calculateBalanceAtDate_ignores_current_balance
    (bal : AccountBalance) (c1 c2 : ℚ) (txs : List Transaction) (d : Int) :
    calculateBalanceAtDate { bal with current_balance := c1 } txs d =
      calculateBalanceAtDate { bal with current_balance := c2 } txs d := rfl

/-- C6 counterexample: an income transaction that references the target
balance in neither role (its `account_balance_id` is "x", the balance's id is
"b1") still contributes its full amount: the income branch applies the delta
unconditionally, so the claim's "no-op for every transaction type" is false. -/
theorem calculateBalanceAtDate_neither_role_counterexample :
    calculateBalanceAtDate c1Balance
      [{ id := "t3", account_balance_id := "x", type := .income,
         amount := 100, currency := "USD", date := 1,
         to_account_balance_id := none, to_amount := none,
         to_currency := none }] 5 = 100 ∧
    (100 : ℚ) ≠ 0 := by
  constructor
  · decide
  · decide

/-- C6 amended: only a transfer that references the target balance in
neither role is a no-op (and never a crash — the fold is total); income,
expense and taxation deltas are applied unconditionally, the caller being
expected to pre-filter. -/
theorem calculateBalanceAtDate_neither_role_transfer_amended
    (bal : AccountBalance) (t : Transaction) (txs : List Transaction)
    (d : Int) (htype : t.type = .transfer)
    (hto : t.to_account_balance_id ≠ some bal.id)
    (hfrom : t.account_balance_id ≠ bal.id) :
    calculateBalanceAtDate bal (t :: txs) d =
      calculateBalanceAtDate bal txs d := by
  rw [calculateBalanceAtDate_eq_specReplaySum,
    calculateBalanceAtDate_eq_specReplaySum]
  unfold specReplaySum
  by_cases hd : t.date ≤ d
  · rw [List.filter_cons_of_pos (by simpa using hd), List.map_cons,
      List.sum_cons]
    have hz : specSignedDelta bal.id t = 0 := by
      unfold specSignedDelta
      rw [htype]
      simp [hto, hfrom]
    rw [hz, zero_add]
  · rw [List.filter_cons_of_neg (by simpa using hd)]

/-- C6 witness: prepending a transfer between two foreign balances leaves
the replayed value of `c1Balance` unchanged. -/
theorem calculateBalanceAtDate_neither_role_transfer_amended_witness :
    calculateBalanceAtDate c1Balance
      ({ id := "t4", account_balance_id := "x", type := .transfer,
         amount := 50, currency := "USD", date := 2,
         to_account_balance_id := some "y", to_amount := some 50,
         to_currency := some "USD" } :: c1Transactions) 5 =
      calculateBalanceAtDate c1Balance c1Transactions 5 :=
  calculateBalanceAtDate_neither_role_transfer_amended c1Balance _
    c1Transactions 5 rfl (by decide) (by decide)

/- The kernel cannot evaluate the built-in String primitives (`toUpper`,
`replace`, `≤`, `splitOn` are defined by well-founded recursion on byte
positions), so the few string operations the source uses are modelled by
structurally recursive equivalents over the character list. -/

/-- `s.toUpperCase()`. -/
def strUpper (s : String) : String := ⟨s.data.map Char.toUpper⟩

def charListLe : List Char → List Char → Bool
  | [], _ => true
  | _ :: _, [] => false
  | c :: cs, d :: ds =>
    if c.val < d.val then true
    else if d.val < c.val then false
    else charListLe cs ds

/-- JS default string comparison (code-unit lexicographic; identical to
codepoint order on the ASCII tickers involved). -/
def strLe (a b : String) : Bool := charListLe a.data b.data

def listReplaceFirst (pat r : List Char) : List Char → List Char
  | [] => []
  | c :: cs =>
    if pat.isPrefixOf (c :: cs) then r ++ (c :: cs).drop pat.length
    else c :: listReplaceFirst pat r cs

/-- JS `s.replace(pat, r)` with a string pattern: replace the first
occurrence only. -/
def strReplaceFirst (s pat r : String) : String :=
  ⟨listReplaceFirst pat.data r.data s.data⟩

def listContainsSub (pat : List Char) : List Char → Bool
  | [] => pat.isEmpty
  | c :: cs => pat.isPrefixOf (c :: cs) || listContainsSub pat cs

/-- JS `s.includes(pat)`. -/
def strContainsSub (s pat : String) : Bool := listContainsSub pat.data s.data

/-- Asset categories of src/src/lib/categories.ts. -/
inductive AssetCategory where
  | currency
  | stock
  | etf
  | crypto
  deriving DecidableEq, Repr

/-- Tickers of the static `ASSETS` catalog in src/src/lib/categories.ts
(display names and symbols are never read by the valuation core). -/
def assetsTickers (c : AssetCategory) : List String :=
  match c with
  | .currency =>
    ["USD", "EUR", "GBP", "JPY", "CAD", "AUD", "CHF", "CNY", "SEK", "NOK",
     "DKK", "PLN", "CZK", "HUF", "RUB", "BRL", "INR", "KRW", "SGD", "HKD"]
  | .stock =>
    ["AAPL", "MSFT", "GOOGL", "AMZN", "TSLA", "META", "NVDA", "BRK.B", "UNH",
     "JNJ", "V", "PG", "JPM", "MA", "HD", "DIS", "PYPL", "ADBE", "CRM",
     "NFLX", "INTC", "AMD", "UBER", "SQ"]
  | .etf =>
    ["SPY", "IVV", "VTI", "VWCE.DE", "QQQ", "IWM", "VEA", "VWO", "BND",
     "TLT", "GLD", "SLV", "XLF", "XLK", "XLE", "XLV", "ARKK", "TAN", "ICLN"]
  | .crypto =>
    ["BTC", "ETH", "SOL", "ADA", "DOT", "MATIC", "AVAX", "LINK", "UNI",
     "ATOM", "FTM", "ALGO", "VET", "FIL", "TRX", "XRP", "LTC", "BCH",
     "DOGE", "SHIB", "USDC", "USDT", "DAI", "BUSD"]

/-- `findAssetCategory`: case-insensitive catalog lookup, iterating the
categories in declaration order, defaulting to `currency` when the ticker is
unknown. (The source's local variable is called `lower` although it holds
the uppercased ticker.) -/
def findAssetCategory (ticker : String) : AssetCategory :=
  let u := strUpper ticker
  if (assetsTickers .currency).any (fun a => strUpper a == u) then .currency
  else if (assetsTickers .stock).any (fun a => strUpper a == u) then .stock
  else if (assetsTickers .etf).any (fun a => strUpper a == u) then .etf
  else if (assetsTickers .crypto).any (fun a => strUpper a == u) then .crypto
  else .currency

/-- JS object property assignment `obj[k] = v`: overwrite the existing
binding in place, else append a new one. -/
def objSet (rates : AssetRates) (k : String) (v : ℚ) : AssetRates :=
  if rates.any (fun p => p.1 == k) then
    rates.map (fun p => if p.1 == k then (k, v) else p)
  else rates ++ [(k, v)]

/-- One `{ticker, price, currency, timestamp}` element of the current-prices
response; only `ticker` and `price` are read. -/
structure PricePoint where
  ticker : String
  price : ℚ
  deriving DecidableEq, Repr

/-- Outcome of one per-category upstream request: a parsed JSON array, a
non-2xx response (`!response.ok`), or a thrown network/parse error. -/
inductive FetchOutcome where
  | ok (data : List PricePoint)
  | httpError
  | threw
  deriving DecidableEq, Repr

/-- The module-level `ratesCache` slot of src/src/lib/currency.tsx. -/
structure RatesCache where
  data : Option AssetRates
  timestamp : Int
  baseCurrency : String
  requestedAssets : List String
  deriving DecidableEq, Repr

/-- 24 hours in milliseconds. -/
def CACHE_DURATION : Int := 24 * 60 * 60 * 1000

def insertSortedStr (x : String) : List String → List String
  | [] => [x]
  | y :: ys => if strLe x y then x :: y :: ys else y :: insertSortedStr x ys

/-- `[...xs].sort()` on strings. -/
def sortStrings (l : List String) : List String :=
  l.foldr insertSortedStr []

/-- Category-specific upstream ticker encoding (switch at lines 93-105). -/
def encodeTicker (category : AssetCategory) (asset : String) : String :=
  match category with
  | .currency => asset ++ "USD=X"
  | .stock => asset
  | .etf => asset
  | .crypto => asset ++ "-USD"

/-- Undo the category-specific encoding (switch at lines 128-142). JS
`String.replace` with a string pattern replaces the first occurrence; the
encoded tickers contain the pattern at most once, so full replacement
coincides. -/
def decodeTicker (category : AssetCategory) (ticker : String) : String :=
  match category with
  | .currency => strReplaceFirst ticker "USD=X" ""
  | .stock => ticker
  | .etf => ticker
  | .crypto => strReplaceFirst ticker "-USD" ""

/-- Insertion-order deduplication: JS push-if-not-included and
`[...new Set(xs)]` both keep first occurrences in order. -/
def dedupKeepFirst {α : Type} [BEq α] (l : List α) : List α :=
  l.foldl (fun acc a => if acc.contains a then acc else acc ++ [a]) []

/-- The `assetsByCategory` partition: assets of one category, in first-seen
order. -/
def categoryAssetsOf (assets : List String) (c : AssetCategory) :
    List String :=
  dedupKeepFirst (assets.filter (fun a => findAssetCategory a == c))

/-- `Object.entries(assetsByCategory)` iteration order. -/
def categoriesInOrder : List AssetCategory :=
  [.currency, .stock, .etf, .crypto]

/-- The cache-validity check at lines 57-62: data present, same base
currency, younger than 24 hours, and the sorted requested ticker set matches
the sorted cached one exactly. -/
def cacheHit (assetsWithBalances : List String) (baseCurrency : String)
    (cache : RatesCache) (now : Int) : Bool :=
  cache.data.isSome && cache.baseCurrency == baseCurrency
    && decide (now - cache.timestamp < CACHE_DURATION)
    && sortStrings assetsWithBalances == sortStrings cache.requestedAssets

/-- Body of the per-category loop at lines 86-153: skip empty partitions,
skip partitions that reduce to the base currency alone, merge a successful
response into the accumulated table, and on `!response.ok` or a thrown
error `continue` with the accumulator unchanged. -/
def fetchCategoryStep (assetsWithBalances : List String)
    (baseCurrency : String) (fetch : AssetCategory → FetchOutcome)
    (acc : AssetRates) (category : AssetCategory) : AssetRates :=
  let assets := categoryAssetsOf assetsWithBalances category
  if assets.isEmpty then acc
  else
    let categoryAssets := assets.filter (fun a => a != baseCurrency)
    if categoryAssets.isEmpty then acc
    else
      match fetch category with
      | .ok data =>
        data.foldl (fun acc2 priceData =>
          let asset := decodeTicker category priceData.ticker
          if asset != "" && asset != baseCurrency then
            objSet acc2 asset priceData.price
          else acc2) acc
      | .httpError => acc
      | .threw => acc

/-- `getAssetRates` from src/src/lib/currency.tsx lines 44-184, with the
I/O boundary made explicit: the cache slot and `Date.now()` are inputs, the
per-category HTTP request is the `fetch` oracle, and the updated cache slot
is returned alongside the table. Every awaited operation of the source sits
inside the per-category try (lines 92-152), so the outer catch at lines
165-183 is unreachable from upstream failures and the translation of the
try body is total. -/
def getAssetRates (assetsWithBalances : List String) (baseCurrency : String)
    (cache : RatesCache) (now : Int) (fetch : AssetCategory → FetchOutcome) :
    AssetRates × RatesCache :=
  if assetsWithBalances.isEmpty then ([(baseCurrency, 1)], cache)
  else if cacheHit assetsWithBalances baseCurrency cache now then
    (cache.data.getD [(baseCurrency, 1)], cache)
  else
    let assetRates := categoriesInOrder.foldl
      (fetchCategoryStep assetsWithBalances baseCurrency fetch)
      [(baseCurrency, 1)]
    (assetRates,
     { data := some assetRates, timestamp := now,
       baseCurrency := baseCurrency, requestedAssets := assetsWithBalances })

/-- The outer catch handler at lines 165-183, translated for reference: it
would return the cached table for the same base currency regardless of age
or ticker set, else a synthetic 1:1 table over the requested assets. No
upstream failure can reach it, because every awaited operation is inside
the inner per-category try. -/
def getAssetRatesOuterCatch (assetsWithBalances : List String)
    (baseCurrency : String) (cache : RatesCache) : AssetRates :=
  match cache.data with
  | some d => if cache.baseCurrency == baseCurrency then d else
      assetsWithBalances.foldl (fun acc asset =>
        if asset != baseCurrency then objSet acc asset 1 else acc)
        [(baseCurrency, 1)]
  | none =>
      assetsWithBalances.foldl (fun acc asset =>
        if asset != baseCurrency then objSet acc asset 1 else acc)
        [(baseCurrency, 1)]

theorem fetchCategoryStep_of_failed (assets : List String) (base : String)
    (fetch : AssetCategory → FetchOutcome) (acc : AssetRates)
    (c : AssetCategory) (h : fetch c = .httpError ∨ fetch c = .threw) :
    fetchCategoryStep assets base fetch acc c = acc := by
  unfold fetchCategoryStep
  rcases h with h | h <;> simp [h]

theorem foldl_fetchCategoryStep_of_failed (assets : List String)
    (base : String) (fetch : AssetCategory → FetchOutcome)
    (hfail : ∀ c, fetch c = .httpError ∨ fetch c = .threw) :
    ∀ (cats : List AssetCategory) (acc : AssetRates),
      cats.foldl (fetchCategoryStep assets base fetch) acc = acc := by
  intro cats
  induction cats with
  | nil => intro acc; rfl
  | cons c cs ih =>
    intro acc
    rw [List.foldl_cons, fetchCategoryStep_of_failed assets base fetch acc c
      (hfail c), ih]

/-- C3 counterexample: with a stale cache entry for the same reporting
currency present and every upstream request failing, `getAssetRates` returns
neither the cached table nor a 1:1 parity table for the requested ticker —
it returns the table holding only the base anchor, because per-category
failures are swallowed by the inner catch and never reach the fallback
chain. -/
theorem getAssetRates_total_failure_counterexample :
    (getAssetRates ["GBP"] "USD"
      { data := some [("USD", 1), ("GBP", 2)], timestamp := 0,
        baseCurrency := "USD", requestedAssets := ["GBP"] }
      86400000 (fun _ => .threw)).1 = [("USD", 1)] ∧
    ([("USD", 1)] : AssetRates) ≠ [("USD", 1), ("GBP", 2)] ∧
    ([("USD", 1)] : AssetRates) ≠ [("USD", 1), ("GBP", 1)] := by
  refine ⟨?_, by decide, by decide⟩
  decide

/-- C3 amended: `getAssetRates` never throws; on a cache miss with every
per-category upstream request failing it returns just the base anchor table
`{reportingCurrency: 1}` — not the cached table and not a per-ticker parity
table (those live in the outer catch handler, which per-request failures
never reach). -/
theorem getAssetRates_total_failure_amended (assets : List String)
    (base : String) (cache : RatesCache) (now : Int)
    (fetch : AssetCategory → FetchOutcome)
    (hmiss : cacheHit assets base cache now = false)
    (hfail : ∀ c, fetch c = .httpError ∨ fetch c = .threw) :
    (getAssetRates assets base cache now fetch).1 = [(base, 1)] := by
  unfold getAssetRates
  by_cases he : assets.isEmpty
  · simp [he]
  · rw [if_neg (by simp [he]), if_neg (by simp [hmiss])]
    rw [foldl_fetchCategoryStep_of_failed assets base fetch hfail]

/-- C3 witness: empty cache, every request failing with a non-2xx status:
the returned table is exactly the base anchor. -/
theorem getAssetRates_total_failure_amended_witness :
    (getAssetRates ["EUR"] "USD"
      { data := none, timestamp := 0, baseCurrency := "",
        requestedAssets := [] }
      1000 (fun _ => .httpError)).1 = [("USD", 1)] :=
  getAssetRates_total_failure_amended ["EUR"] "USD"
    { data := none, timestamp := 0, baseCurrency := "",
      requestedAssets := [] }
    1000 (fun _ => .httpError) (by decide) (fun c => Or.inl rfl)

/-- `accounts` row joined with its balances (`AccountWithBalances` in
currency.tsx). -/
structure AccountWithBalances where
  id : String
  name : String
  balances : List AccountBalance
  deriving DecidableEq, Repr

/-- One point of the produced series. The source stores the per-balance
breakdown as extra dynamic keys on the same object; here it is a separate
association list (`accountName_ticker` keys), empty on the simple path,
which adds no such keys. -/
structure HistoricalDataPoint where
  date : Int
  totalValue : ℚ
  breakdown : List (String × ℚ)
  deriving DecidableEq, Repr

/-- Requested period ("30d" | "180d" | "ytd" | "1y" | "5y" | "all"). -/
inductive Period where
  | d30
  | d180
  | ytd
  | y1
  | y5
  | all
  deriving DecidableEq, Repr

/-- One element of the historical-prices response. The upstream JSON may
carry `date` or `timestamp` and `close` or `price`; absent fields are
`none`. Date-valued fields are parsed day numbers (malformed dates, which
the source skips, are not modelled). -/
structure CurrencyPriceData where
  ticker : String
  price : Option ℚ
  close : Option ℚ
  date : Option Int
  timestamp : Option Int
  deriving DecidableEq, Repr

/-- `rate.date || rate.timestamp`. -/
def dateKeyOf (r : CurrencyPriceData) : Option Int :=
  match r.date with
  | some d => some d
  | none => r.timestamp

/-- `rate.close || rate.price`, with JS falsiness: a close of exactly 0
falls through to `price`. -/
def closeOrPrice (r : CurrencyPriceData) : Option ℚ :=
  match r.close with
  | some c => if c == 0 then r.price else some c
  | none => r.price

/-- Ticker decoding in the historical path (lines 707-715): strip "USD=X"
when present, else strip "-USD", else keep the raw ticker. -/
def histAssetSymbol (ticker : String) : String :=
  if strContainsSub ticker "USD=X" then strReplaceFirst ticker "USD=X" ""
  else if strContainsSub ticker "-USD" then strReplaceFirst ticker "-USD" ""
  else ticker

/-- The `ratesByTimestamp` map (lines 679-716): bucket samples by day,
seeding each new bucket with a copy of the current rates, then assign the
sample's value under the decoded symbol; samples lacking both date fields
are skipped, and samples whose close and price are both absent (or whose
close is 0 with no price) still create their bucket but assign nothing. -/
def buildRatesByTimestamp (currentRates : AssetRates)
    (historicalRates : List CurrencyPriceData) : List (Int × AssetRates) :=
  historicalRates.foldl (fun m r =>
    match dateKeyOf r with
    | none => m
    | some day =>
      let m1 :=
        if m.any (fun e => e.1 == day) then m else m ++ [(day, currentRates)]
      match closeOrPrice r with
      | none => m1
      | some v =>
        m1.map (fun e =>
          if e.1 == day then (day, objSet e.2 (histAssetSymbol r.ticker) v)
          else e)) []

def insertSortedInt (x : Int) : List Int → List Int
  | [] => [x]
  | y :: ys => if x ≤ y then x :: y :: ys else y :: insertSortedInt x ys

/-- `Array.from(keys).sort()`: ISO-timestamp string order is chronological
order, i.e. numeric order on day numbers. -/
def sortInts (l : List Int) : List Int := l.foldr insertSortedInt []

/-- `findClosestRates` (lines 747-770): scan the sorted sample days keeping
the one at or before the target with the smallest nonnegative distance;
fall back to current rates when none precedes the target. -/
def findClosestRates (ratesByTimestamp : List (Int × AssetRates))
    (sortedTimestamps : List Int) (currentRates : AssetRates)
    (targetDate : Int) : AssetRates :=
  let closest := sortedTimestamps.foldl (fun best ts =>
    let diff := targetDate - ts
    match best with
    | none => if 0 ≤ diff then some (ts, diff) else none
    | some (bts, bdiff) =>
      if 0 ≤ diff && diff < bdiff then some (ts, diff) else some (bts, bdiff))
    none
  match closest with
  | some (ts, _) =>
    match ratesByTimestamp.find? (fun e => e.1 == ts) with
    | some e => e.2
    | none => currentRates
  | none => currentRates

/-- Earliest transaction date: `reduce` over the parsed dates seeded with
now (lines 580-588), so it never exceeds today; `none` when there are no
transactions. -/
def firstTxDate (transactions : List Transaction) (today : Int) :
    Option Int :=
  if transactions.isEmpty then none
  else some (transactions.foldl (fun m t => min m t.date) today)

/-- Start day the JS period switch computes for a bounded period.
`30d`/`180d` are plain day arithmetic; `ytd`, `1y` and `5y` need real
calendar arithmetic (`new Date(year, 0, 1)`, `setFullYear`), which is
outside a day-number model, so the caller supplies that result as the
`oracleStart` input. -/
def periodStartOf (period : Period) (today oracleStart : Int) : Int :=
  match period with
  | .d30 => today - 30
  | .d180 => today - 180
  | .ytd => oracleStart
  | .y1 => oracleStart
  | .y5 => oracleStart
  | .all => oracleStart

/-- `startDate` of `calculateHistoricalHoldings` (lines 590-632): for "all"
with transactions, the earliest transaction day; for a bounded period whose
start precedes the earliest transaction, clamp to that transaction day;
otherwise null. -/
def historicalStartDate (period : Period) (transactions : List Transaction)
    (today oracleStart : Int) : Option Int :=
  match firstTxDate transactions today with
  | none => none
  | some f =>
    if period == .all then some f
    else if periodStartOf period today oracleStart < f then some f
    else none

/-- Daily stepping `while (currentDate <= today)` from `s`. -/
def dayRange (s t : Int) : List Int :=
  (List.range (t - s + 1).toNat).map (fun i : Nat => s + (i : Int))

/-- Lines 816-821 and 1047-1051: drop the first emitted point when its
totalValue is exactly 0. -/
def trimLeadingZero (pts : List HistoricalDataPoint) :
    List HistoricalDataPoint :=
  match pts with
  | [] => []
  | p :: rest => if p.totalValue == 0 then rest else p :: rest

/-- The caller-side pre-filter: transactions touching a balance as source
or destination. -/
def txTouches (bal : AccountBalance) (t : Transaction) : Bool :=
  t.account_balance_id == bal.id || t.to_account_balance_id == some bal.id

/-- `calculateAssetValueAtDate` (lines 863-912): the same replay fold as
`calculateBalanceAtDate` (inlined verbatim in the source, lines 871-897 =
1067-1096), followed by conversion into the main currency; the conversion
never throws, so the catch branch returning the raw balance is dead. -/
def calculateAssetValueAtDate (currentBalance : AccountBalance)
    (assetTransactions : List Transaction) (rates : AssetRates)
    (mainCurrency : String) (targetDate : Int) : ℚ :=
  convertCurrency
    (calculateBalanceAtDate currentBalance assetTransactions targetDate)
    currentBalance.currency mainCurrency rates

/-- `calculatePortfolioValueAtDate` (lines 831-858). -/
def calculatePortfolioValueAtDate (accounts : List AccountWithBalances)
    (transactions : List Transaction) (rates : AssetRates)
    (mainCurrency : String) (targetDate : Int) : ℚ :=
  (accounts.map (fun account =>
    (account.balances.map (fun balance =>
      calculateAssetValueAtDate balance
        (transactions.filter (txTouches balance)) rates mainCurrency
        targetDate)).sum)).sum

/-- The per-point breakdown keys `accountName_ticker` (lines 793-811). -/
def breakdownAtDate (accounts : List AccountWithBalances)
    (transactions : List Transaction) (rates : AssetRates)
    (mainCurrency : String) (targetDate : Int) : List (String × ℚ) :=
  accounts.flatMap (fun account =>
    account.balances.map (fun balance =>
      (account.name ++ "_" ++ balance.currency,
       calculateAssetValueAtDate balance
         (transactions.filter (txTouches balance)) rates mainCurrency
         targetDate)))

/-- The distinct tickers over all balances (lines 550-553). -/
def uniqueAssetsOf (accounts : List AccountWithBalances) : List String :=
  dedupKeepFirst
    ((accounts.flatMap (fun a => a.balances)).map (fun b => b.currency))

/-- Lines 566-571: ensure every asset has an entry; JS truthiness means a
0-valued entry is also replaced by 1. -/
def fillMissingRates (rates : AssetRates) (uniqueAssets : List String) :
    AssetRates :=
  uniqueAssets.foldl (fun r asset =>
    if truthyRate r asset then r else objSet r asset 1) rates

/-- The start day of `createSimpleHistoricalChart` (lines 957-984): period
switch (with "all" falling back to the earliest transaction or 365 days),
then clamp forward to the earliest transaction day. -/
def simpleStartDate (period : Period) (transactions : List Transaction)
    (today oracleStart : Int) : Int :=
  let startDate0 :=
    match period with
    | .all =>
      match firstTxDate transactions today with
      | some f => f
      | none => today - 365
    | _ => periodStartOf period today oracleStart
  match firstTxDate transactions today with
  | some f => if startDate0 < f then f else startDate0
  | none => startDate0

/-- `createSimpleHistoricalChart` (lines 918-1057): one point per day from
the clamped start to today, valuing every balance by replay and converting
with the single current-rates table, then the leading-zero trim. (The
`transactionsByDate` map the source builds is never read; the
currentRates-absent fetch branch is not exercised — the one caller always
passes the table.) -/
def createSimpleHistoricalChart (accounts : List AccountWithBalances)
    (transactions : List Transaction) (mainCurrency : String)
    (period : Period) (currentRates : AssetRates) (today oracleStart : Int) :
    List HistoricalDataPoint :=
  trimLeadingZero
    ((dayRange (simpleStartDate period transactions today oracleStart)
        today).map (fun d =>
      { date := d
        totalValue :=
          (accounts.map (fun account =>
            (account.balances.map (fun balance =>
              convertCurrency
                (calculateBalanceAtDate balance
                  (transactions.filter (txTouches balance)) d)
                balance.currency mainCurrency currentRates)).sum)).sum
        breakdown := [] }))

/-- The rich path of `calculateHistoricalHoldings` (lines 678-822): bucket
the samples, sort the sample days, walk either the daily range from the
clamped start or the raw sample days, price each day with the nearest
preceding sample, and trim the leading zero point. -/
def richHistoricalChart (accounts : List AccountWithBalances)
    (transactions : List Transaction) (mainCurrency : String)
    (currentRates : AssetRates) (historicalRates : List CurrencyPriceData)
    (today : Int) (startDate : Option Int) : List HistoricalDataPoint :=
  let ratesByTimestamp := buildRatesByTimestamp currentRates historicalRates
  let sortedTimestamps := sortInts (ratesByTimestamp.map (fun e => e.1))
  if sortedTimestamps.isEmpty then []
  else
    let datesToProcess :=
      match startDate with
      | some s => dayRange s today
      | none => sortedTimestamps
    trimLeadingZero (datesToProcess.map (fun d =>
      { date := d
        totalValue := calculatePortfolioValueAtDate accounts transactions
          (findClosestRates ratesByTimestamp sortedTimestamps currentRates d)
          mainCurrency d
        breakdown := breakdownAtDate accounts transactions
          (findClosestRates ratesByTimestamp sortedTimestamps currentRates d)
          mainCurrency d }))

/-- `uniqueDates.size` of the data-sufficiency gate (lines 665-667): number
of distinct raw `date || timestamp` keys (an absent key counts as one
value, as `undefined` does in a JS Set). -/
def distinctDateKeys (historicalRates : List CurrencyPriceData) : Nat :=
  (dedupKeepFirst (historicalRates.map dateKeyOf)).length

/-- `calculateHistoricalHoldings` (lines 542-826) with the I/O boundary
explicit: the fetched current rates, the fetched historical samples, today
and the calendar-arithmetic period start are inputs. The body: empty-asset
early return, the three-step data-sufficiency gate falling back to the
simple chart, else the rich path. -/
def calculateHistoricalHoldings (accounts : List AccountWithBalances)
    (transactions : List Transaction) (period : Period)
    (mainCurrency : String) (fetchedCurrentRates : AssetRates)
    (historicalRates : List CurrencyPriceData) (today oracleStart : Int) :
    List HistoricalDataPoint :=
  if (uniqueAssetsOf accounts).isEmpty then []
  else if historicalRates.length = 0 then
    createSimpleHistoricalChart accounts transactions mainCurrency period
      (fillMissingRates fetchedCurrentRates (uniqueAssetsOf accounts))
      today oracleStart
  else if historicalRates.length = 1 then
    createSimpleHistoricalChart accounts transactions mainCurrency period
      (fillMissingRates fetchedCurrentRates (uniqueAssetsOf accounts))
      today oracleStart
  else if distinctDateKeys historicalRates < 3 then
    createSimpleHistoricalChart accounts transactions mainCurrency period
      (fillMissingRates fetchedCurrentRates (uniqueAssetsOf accounts))
      today oracleStart
  else
    richHistoricalChart accounts transactions mainCurrency
      (fillMissingRates fetchedCurrentRates (uniqueAssetsOf accounts))
      historicalRates today
      (historicalStartDate period transactions today oracleStart)

theorem mem_dayRange_ge (s t d : Int) (h : d ∈ dayRange s t) : s ≤ d := by
  unfold dayRange at h
  rw [List.mem_map] at h
  obtain ⟨i, _, rfl⟩ := h
  omega

theorem mem_trimLeadingZero (pts : List HistoricalDataPoint)
    (p : HistoricalDataPoint) (h : p ∈ trimLeadingZero pts) : p ∈ pts := by
  revert h
  cases pts with
  | nil => intro h; simp [trimLeadingZero] at h
  | cons q rest =>
    intro h
    simp only [trimLeadingZero] at h
    by_cases hz : (q.totalValue == 0) = true
    · rw [if_pos hz] at h
      exact List.mem_cons_of_mem q h
    · rwa [if_neg hz] at h

theorem simpleStartDate_ge (period : Period) (txs : List Transaction)
    (today oracleStart N : Int) (h : firstTxDate txs today = some N) :
    N ≤ simpleStartDate period txs today oracleStart := by
  unfold simpleStartDate
  rw [h]
  cases period <;> dsimp only <;> split_ifs <;> omega

theorem createSimpleHistoricalChart_dates_ge
    (accounts : List AccountWithBalances) (txs : List Transaction)
    (mainCurrency : String) (period : Period) (currentRates : AssetRates)
    (today oracleStart N : Int) (h : firstTxDate txs today = some N) :
    ∀ p ∈ createSimpleHistoricalChart accounts txs mainCurrency period
        currentRates today oracleStart, N ≤ p.date := by
  intro p hp
  unfold createSimpleHistoricalChart at hp
  have hp2 := mem_trimLeadingZero _ _ hp
  rw [List.mem_map] at hp2
  obtain ⟨d, hd, rfl⟩ := hp2
  exact le_trans (simpleStartDate_ge period txs today oracleStart N h)
    (mem_dayRange_ge _ _ _ hd)

theorem historicalStartDate_clamped (period : Period)
    (txs : List Transaction) (today oracleStart N : Int)
    (h : firstTxDate txs today = some N)
    (hw : period = .all ∨ periodStartOf period today oracleStart < N) :
    historicalStartDate period txs today oracleStart = some N := by
  unfold historicalStartDate
  rw [h]
  by_cases hall : (period == Period.all) = true
  · simp [hall]
  · have hlt : periodStartOf period today oracleStart < N := by
      rcases hw with hw | hw
      · exact absurd (by rw [hw]; rfl) hall
      · exact hw
    simp [hall, hlt]

theorem richHistoricalChart_dates_ge (accounts : List AccountWithBalances)
    (txs : List Transaction) (mainCurrency : String)
    (currentRates : AssetRates) (hr : List CurrencyPriceData)
    (today N : Int) :
    ∀ p ∈ richHistoricalChart accounts txs mainCurrency currentRates hr
        today (some N), N ≤ p.date := by
  intro p hp
  simp only [richHistoricalChart] at hp
  split at hp
  · simp at hp
  · have hp2 := mem_trimLeadingZero _ _ hp
    rw [List.mem_map] at hp2
    obtain ⟨d, hd, rfl⟩ := hp2
    exact mem_dayRange_ge _ _ _ hd

/-- C5 amended: whenever the earliest transaction day N is inside the
window in the non-degenerate sense — the period is "all", or the period's
start day lies strictly before N (the clamp case) — every point of the
returned series is dated at day N or later, so in particular no pre-N zero
point is shown; when N coincides exactly with the period start, the rich
path walks the raw sample days, which may precede N, and the trim removes
only the first zero point (see the counterexample). -/
theorem calculateHistoricalHoldings_leading_zero_amended
    (accounts : List AccountWithBalances) (txs : List Transaction)
    (period : Period) (mainCurrency : String) (fetched : AssetRates)
    (hr : List CurrencyPriceData) (today oracleStart N : Int)
    (h : firstTxDate txs today = some N)
    (hw : period = .all ∨ periodStartOf period today oracleStart < N) :
    ∀ p ∈ calculateHistoricalHoldings accounts txs period mainCurrency
        fetched hr today oracleStart, N ≤ p.date := by
  intro p hp
  unfold calculateHistoricalHoldings at hp
  split_ifs at hp with h1 h2 h3 h4
  · simp at hp
  · exact createSimpleHistoricalChart_dates_ge _ _ _ _ _ _ _ _ h p hp
  · exact createSimpleHistoricalChart_dates_ge _ _ _ _ _ _ _ _ h p hp
  · exact createSimpleHistoricalChart_dates_ge _ _ _ _ _ _ _ _ h p hp
  · rw [historicalStartDate_clamped period txs today oracleStart N h hw]
      at hp
    exact richHistoricalChart_dates_ge _ _ _ _ _ _ _ p hp

/-- C4: with a nonempty asset set, `calculateHistoricalHoldings` takes the
simple current-rates path exactly when the historical fetch yielded zero
points, exactly one point, or fewer than 3 distinct sample timestamps, and
otherwise the rich historical-rates path; in particular exactly 2 distinct
timestamps always produce the simple current-rate series. -/
theorem calculateHistoricalHoldings_sparsity_gate
    (accounts : List AccountWithBalances) (txs : List Transaction)
    (period : Period) (mainCurrency : String) (fetched : AssetRates)
    (hr : List CurrencyPriceData) (today oracleStart : Int)
    (hne : uniqueAssetsOf accounts ≠ []) :
    (calculateHistoricalHoldings accounts txs period mainCurrency fetched
        hr today oracleStart
      = if hr.length = 0 ∨ hr.length = 1 ∨ distinctDateKeys hr < 3 then
          createSimpleHistoricalChart accounts txs mainCurrency period
            (fillMissingRates fetched (uniqueAssetsOf accounts))
            today oracleStart
        else
          richHistoricalChart accounts txs mainCurrency
            (fillMissingRates fetched (uniqueAssetsOf accounts)) hr today
            (historicalStartDate period txs today oracleStart)) ∧
    (distinctDateKeys hr = 2 →
      calculateHistoricalHoldings accounts txs period mainCurrency fetched
          hr today oracleStart
        = createSimpleHistoricalChart accounts txs mainCurrency period
            (fillMissingRates fetched (uniqueAssetsOf accounts))
            today oracleStart) := by
  have hne2 : ¬ ((uniqueAssetsOf accounts).isEmpty = true) := fun hx =>
    hne (List.isEmpty_iff.mp hx)
  have hmain : calculateHistoricalHoldings accounts txs period mainCurrency
      fetched hr today oracleStart
      = if hr.length = 0 ∨ hr.length = 1 ∨ distinctDateKeys hr < 3 then
          createSimpleHistoricalChart accounts txs mainCurrency period
            (fillMissingRates fetched (uniqueAssetsOf accounts))
            today oracleStart
        else
          richHistoricalChart accounts txs mainCurrency
            (fillMissingRates fetched (uniqueAssetsOf accounts)) hr today
            (historicalStartDate period txs today oracleStart) := by
    unfold calculateHistoricalHoldings
    rw [if_neg hne2]
    by_cases h0 : hr.length = 0
    · rw [if_pos h0, if_pos (Or.inl h0)]
    · rw [if_neg h0]
      by_cases h1 : hr.length = 1
      · rw [if_pos h1, if_pos (Or.inr (Or.inl h1))]
      · rw [if_neg h1]
        by_cases h2 : distinctDateKeys hr < 3
        · rw [if_pos h2, if_pos (Or.inr (Or.inr h2))]
        · rw [if_neg h2, if_neg (by tauto)]
  refine ⟨hmain, fun h2 => ?_⟩
  rw [hmain, if_pos (Or.inr (Or.inr (by omega)))]

/-- Sample portfolio for the sparsity-gate witness: one account with one
USD balance and one income transaction. -/
def c4Accounts : List AccountWithBalances :=
  [{ id := "a1", name := "Main",
     balances := [{ id := "b1", account_id := "a1", category := "currency",
                    currency := "USD", current_balance := 10 }] }]

def c4Txs : List Transaction :=
  [{ id := "t1", account_balance_id := "b1", type := .income, amount := 10,
     currency := "USD", date := 35, to_account_balance_id := none,
     to_amount := none, to_currency := none }]

/-- Historical result with exactly 2 distinct sample timestamps. -/
def c4Hr : List CurrencyPriceData :=
  [{ ticker := "EURUSD=X", price := none, close := some 2, date := some 5,
     timestamp := none },
   { ticker := "EURUSD=X", price := none, close := some 3, date := some 6,
     timestamp := none }]

/-- C4 witness: on a concrete portfolio, a historical result with exactly 2
distinct timestamps makes the calculator return the simple current-rate
series. -/
theorem calculateHistoricalHoldings_sparsity_gate_witness :
    calculateHistoricalHoldings c4Accounts c4Txs .d30 "USD" [("USD", 1)]
        c4Hr 40 0
      = createSimpleHistoricalChart c4Accounts c4Txs "USD" .d30
          (fillMissingRates [("USD", 1)] (uniqueAssetsOf c4Accounts)) 40 0 :=
  (calculateHistoricalHoldings_sparsity_gate c4Accounts c4Txs .d30 "USD"
    [("USD", 1)] c4Hr 40 0 (by decide)).2 (by decide)

def c5Bal : AccountBalance :=
  { id := "b1", account_id := "a1", category := "currency",
    currency := "USD", current_balance := 1000 }

def c5Accounts : List AccountWithBalances :=
  [{ id := "a1", name := "A", balances := [c5Bal] }]

/-- A single income of 1000 USD on day 70. -/
def c5Txs : List Transaction :=
  [{ id := "t1", account_balance_id := "b1", type := .income, amount := 1000,
     currency := "USD", date := 70, to_account_balance_id := none,
     to_amount := none, to_currency := none }]

/-- Historical samples on days 68, 69 and 71: three distinct timestamps (so
the rich path runs), two of them before the earliest transaction day 70. -/
def c5Hr : List CurrencyPriceData :=
  [{ ticker := "EURUSD=X", price := none, close := some 2, date := some 68,
     timestamp := none },
   { ticker := "EURUSD=X", price := none, close := some 2, date := some 69,
     timestamp := none },
   { ticker := "EURUSD=X", price := none, close := some 2, date := some 71,
     timestamp := none }]

/-- C5 counterexample: today is day 100 and the period is 30 days, so the
window starts at day 70 — exactly the earliest transaction day N = 70,
which therefore lies within the requested window. The rich path leaves
`startDate` null, walks the raw sample days 68, 69, 71, and the trim drops
only the first zero point; the returned series still contains the point
dated day 69 < N with totalValue 0. -/
theorem calculateHistoricalHoldings_leading_zero_counterexample :
    firstTxDate c5Txs 100 = some 70 ∧
    periodStartOf .d30 100 0 ≤ 70 ∧ (70 : Int) ≤ 100 ∧
    (calculateHistoricalHoldings c5Accounts c5Txs .d30 "USD" [("USD", 1)]
        c5Hr 100 0).any
      (fun p => p.date < 70 && p.totalValue == 0) = true := by
  refine ⟨by decide, by decide, by decide, by decide⟩

/-- A single income of 500 USD on day 80 (strictly inside the 30-day
window ending at day 100). -/
def c5wTxs : List Transaction :=
  [{ id := "t1", account_balance_id := "b1", type := .income, amount := 500,
     currency := "USD", date := 80, to_account_balance_id := none,
     to_amount := none, to_currency := none }]

/-- C5 witness: with the earliest transaction on day 80, strictly after the
window start (day 70), every point of the returned series is dated at day
80 or later. -/
theorem calculateHistoricalHoldings_leading_zero_amended_witness :
    (calculateHistoricalHoldings c5Accounts c5wTxs .d30 "USD" [("USD", 1)]
        c5Hr 100 0).all (fun p => decide ((80 : Int) ≤ p.date)) = true := by
  have h := calculateHistoricalHoldings_leading_zero_amended c5Accounts
    c5wTxs .d30 "USD" [("USD", 1)] c5Hr 100 0 80 (by decide)
    (Or.inr (by decide))
  exact List.all_eq_true.mpr (fun p hp => decide_eq_true (h p hp))
